import Mathlib

/-!
# ClearSky backend core: shallow embedding and verification

This file embeds the AQI classification-and-history core of the ClearSky
backend (`src/backend/routes/user.routes.ts`) in Lean and proves the
specification claims about it.

Embedding conventions:
* JS numbers that hold AQI values and day counts are embedded as `Int`
  (the code only ever produces integer values for them via `parseInt`
  and the upstream integer AQI).
* Coordinates and per-pollutant sub-indices (`parseFloat` results and raw
  payload numbers) are embedded as `Rat`; no claim depends on their
  arithmetic.
* JS strings are `String`; JS string comparison (`>=` on code units) is
  the lexicographic order on `String`; `time.slice(0, 10)` is the first
  10 characters (the timestamps involved are ASCII).
* The mutable module-level array `aqiHistoryStore` is embedded by
  explicit state passing: each operation takes the store (a
  `List AqiRecord`) and returns the updated store.
* `Math.round(sum / len)` is computed exactly on integers; see
  `roundedMean`.
* The network call of `getData` is embedded as an `UpstreamResp`
  argument: either the JSON payload axios resolved with, or the error
  message of a rejected request (the `catch` branch).
* `Date` arithmetic in `getHistory` (`setDate(getDate() - days)`) is
  embedded as epoch milliseconds minus `days * 86400000`; the formatting
  of the resulting instant as an ISO string (`toISOString`) is abstracted
  as a function parameter `msToIso`.
-/

/-- One entry of the `AQI_LEVELS` table (fields `max`, `label`, `color`,
`recommendation` from the source). -/
structure AqiLevel where
  max : Int
  label : String
  color : String
  recommendation : String
deriving DecidableEq

/-- Band 1 of `AQI_LEVELS` (source lines 83-88). -/
def goodLevel : AqiLevel :=
  ⟨50, "Good", "#00e400",
   "Air quality is satisfactory. Enjoy outdoor activities."⟩

/-- Band 2 of `AQI_LEVELS` (source lines 89-95). -/
def moderateLevel : AqiLevel :=
  ⟨100, "Moderate", "#ffff00",
   "Acceptable quality. Unusually sensitive people should consider reducing prolonged outdoor exertion."⟩

/-- Band 3 of `AQI_LEVELS` (source lines 96-102). -/
def sensitiveLevel : AqiLevel :=
  ⟨150, "Unhealthy for Sensitive", "#ff7e00",
   "Members of sensitive groups may experience health effects. Consider reducing outdoor activities."⟩

/-- Band 4 of `AQI_LEVELS` (source lines 103-109). -/
def unhealthyLevel : AqiLevel :=
  ⟨200, "Unhealthy", "#ff0000",
   "Everyone may experience health effects. Avoid prolonged outdoor exertion. Sensitive groups should stay indoors."⟩

/-- Band 5 of `AQI_LEVELS` (source lines 110-116). -/
def veryUnhealthyLevel : AqiLevel :=
  ⟨300, "Very Unhealthy", "#8f3f97",
   "Health alert: everyone may experience serious effects. Stay indoors, close windows, use air purifiers."⟩

/-- Band 6 of `AQI_LEVELS` (source lines 117-123). -/
def hazardousLevel : AqiLevel :=
  ⟨500, "Hazardous", "#7e0023",
   "Emergency conditions. Avoid all outdoor activity. Stay indoors with windows closed. Use N95 masks if you must go out."⟩

/-- The `AQI_LEVELS` constant array (source lines 82-124). -/
def AQI_LEVELS : List AqiLevel :=
  [goodLevel, moderateLevel, sensitiveLevel, unhealthyLevel,
   veryUnhealthyLevel, hazardousLevel]

/-- The `for (const level of AQI_LEVELS) if (aqi <= level.max) return level`
loop body of `getLevel`: first element whose `max` bound is `>= aqi`. -/
def getLevelGo (aqi : Int) : List AqiLevel → Option AqiLevel
  | [] => none
  | l :: rest => if aqi ≤ l.max then some l else getLevelGo aqi rest

/-- `getLevel` (source lines 149-154): scan `AQI_LEVELS` in order, return the
first band with `aqi <= level.max`; fall back to
`AQI_LEVELS[AQI_LEVELS.length - 1]` when no band matches. -/
def getLevel (aqi : Int) : AqiLevel :=
  match getLevelGo aqi AQI_LEVELS with
  | some l => l
  | none => AQI_LEVELS.getLast (by decide)

/-- One entry of `aqiHistoryStore`: the `AqiRecord` type of the source
(lines 138-145). -/
structure AqiRecord where
  city : String
  aqi : Int
  lat : Rat
  lng : Rat
  time : String
  dominantPollutant : Option String
deriving DecidableEq

/-- `MAX_HISTORY` (source line 147). -/
def MAX_HISTORY : Nat := 500

/-- The record operation of `getData` (source lines 208-216):
`aqiHistoryStore.push(rec); if (aqiHistoryStore.length > MAX_HISTORY)
aqiHistoryStore.shift();` — append, then drop the oldest element when the
capacity is exceeded. -/
def recordObs (store : List AqiRecord) (r : AqiRecord) : List AqiRecord :=
  let pushed := store ++ [r]
  if MAX_HISTORY < pushed.length then pushed.drop 1 else pushed

/-- The filter step of `getHistory` (source line 265):
`aqiHistoryStore.filter((r) => r.time >= sinceStr)`. -/
def queryHistory (store : List AqiRecord) (sinceStr : String) : List AqiRecord :=
  store.filter (fun r => sinceStr ≤ r.time)

/-- `r.time.slice(0, 10)` — the date portion of an observation timestamp
(source line 272): the first 10 characters of the timestamp string (the
timestamps are ASCII, so JS code units coincide with characters). -/
def dateKey (r : AqiRecord) : String := String.mk (r.time.data.take 10)

/-- One step of building the `byDay` map (source lines 271-278): if the date
is already a key, append the record to that entry's `readings` (JS
`entry.readings.push(r)`); otherwise add a new entry at the end (JS `Map`
preserves insertion order). -/
def insertByDay (d : String) (r : AqiRecord) :
    List (String × List AqiRecord) → List (String × List AqiRecord)
  | [] => [(d, [r])]
  | (k, rs) :: rest =>
    if k = d then (k, rs ++ [r]) :: rest
    else (k, rs) :: insertByDay d r rest

/-- The `byDay` map of `getHistory` (source lines 266-278), as an
insertion-ordered association list from date string to the records of that
day. -/
def groupByDay (records : List AqiRecord) : List (String × List AqiRecord) :=
  records.foldl (fun acc r => insertByDay (dateKey r) r acc) []

/-- `Math.round(sum / entry.readings.length)` (source line 282) computed
exactly on integers: `Math.round x = ⌊x + 1/2⌋` (JS rounds half toward
`+∞`), and `⌊sum/len + 1/2⌋ = ⌊(2*sum + len) / (2*len)⌋`, an integer floor
division (the divisor is nonnegative, so `Int` division is floor
division). -/
def roundedMean (sum : Int) (len : Nat) : Int :=
  (2 * sum + len) / (2 * (len : Int))

/-- One bucket of the `history` response of `getHistory` (source lines
280-284): the date, the rounded average AQI, and the readings of that
day. -/
structure DailyBucket where
  date : String
  avgAqi : Int
  readings : List AqiRecord
deriving DecidableEq

/-- Build one `history` entry from a `byDay` group (source lines 280-284). -/
def mkBucket (d : String) (rs : List AqiRecord) : DailyBucket :=
  ⟨d, roundedMean ((rs.map (fun r => r.aqi)).sum) rs.length, rs⟩

/-- Insertion step of the date sort (source line 286:
`history.sort((a, b) => a.date.localeCompare(b.date))`, ascending
lexicographic order on zero-padded ISO dates). -/
def insertSortedByDate (b : DailyBucket) : List DailyBucket → List DailyBucket
  | [] => [b]
  | c :: rest =>
    if b.date ≤ c.date then b :: c :: rest else c :: insertSortedByDate b rest

/-- The date sort of `getHistory` (source line 286) as a stable insertion
sort. -/
def sortByDate (bs : List DailyBucket) : List DailyBucket :=
  bs.foldr insertSortedByDate []

/-- The grouping-and-averaging step of `getHistory` (source lines 266-287):
group by date key, build one bucket per group, sort by date. -/
def aggregateByDay (records : List AqiRecord) : List DailyBucket :=
  sortByDate ((groupByDay records).map (fun p => mkBucket p.1 p.2))

/-- The `pollutants` object of the `getData` response (source lines
196-202). Each field is `d.iaqi?.X?.v ?? null`; both an absent `iaqi`
object and an absent sub-index collapse to `null`, so a single `Option`
per pollutant embeds the doubly-optional access. -/
structure Pollutants where
  pm25 : Option Rat
  pm10 : Option Rat
  no2 : Option Rat
  so2 : Option Rat
  o3 : Option Rat
deriving DecidableEq

/-- The `data.data` object of a WAQI payload, restricted to the fields
`getData` reads (source lines 187-203). A field that is absent or `null`
in the JSON is `none`. -/
structure PayloadData where
  aqi : Option Int
  cityName : Option String
  dominentpol : Option String
  pm25 : Option Rat
  pm10 : Option Rat
  no2 : Option Rat
  so2 : Option Rat
  o3 : Option Rat
  timeS : Option String
deriving DecidableEq

/-- The JSON body axios resolves with: `{ status, data }` (source lines
178-187). `data = none` embeds both a missing and a `null` `data` field
(`data.data == null`). -/
structure Payload where
  status : String
  data : Option PayloadData
deriving DecidableEq

/-- Outcome of the `axios.get` call in `getData` (source line 177): either
the parsed JSON body, or the error of a rejected request (network failure
or non-2xx status), which lands in the `catch` branch. -/
inductive UpstreamResp where
  | success (payload : Payload)
  | failure (message : String)
deriving DecidableEq

/-- The `formatted` response body of `getData` (source lines 192-205). -/
structure Formatted where
  city : String
  aqi : Int
  dominantPollutant : Option String
  pollutants : Pollutants
  time : String
  level : AqiLevel
deriving DecidableEq

/-- The HTTP outcome of `getData` after the coordinate checks: the 502
`Invalid response from AQI service` answer with the payload attached as
`detail`, the 500 `Failed to fetch AQI data` answer of the `catch` branch,
or the 200 answer carrying `formatted`. -/
inductive GetDataResult where
  | badGateway (detail : Payload)
  | serverError (detail : String)
  | success (body : Formatted)
deriving DecidableEq

/-- The fetch-classify-record core of `getData` (source lines 174-227),
from the upstream response on: reject the payload with 502 when
`data.status !== "ok" || data.data == null` (store untouched); answer 500
when axios threw (store untouched); otherwise default the missing fields
(`aqi ?? 0`, `city?.name ?? "Unknown"`, `dominentpol ?? null`,
`time?.s ?? new Date().toISOString()`), classify, append the new record to
the store and trim it to `MAX_HISTORY`. -/
def getData (resp : UpstreamResp) (nowIso : String) (numLat numLng : Rat)
    (store : List AqiRecord) : GetDataResult × List AqiRecord :=
  match resp with
  | .failure msg => (.serverError msg, store)
  | .success p =>
    match p.data with
    | none => (.badGateway p, store)
    | some d =>
      if p.status ≠ "ok" then (.badGateway p, store)
      else
        let aqi := d.aqi.getD 0
        let cityName := d.cityName.getD "Unknown"
        let time := d.timeS.getD nowIso
        let formatted : Formatted :=
          ⟨cityName, aqi, d.dominentpol,
           ⟨d.pm25, d.pm10, d.no2, d.so2, d.o3⟩, time, getLevel aqi⟩
        (.success formatted,
         recordObs store ⟨cityName, aqi, numLat, numLng, time, d.dominentpol⟩)

/-- The digit-prefix part of JS `parseInt(s, 10)`: longest leading run of
decimal digits, `NaN` (`none`) when there is none. -/
def parseDigits (cs : List Char) : Option Nat :=
  let ds := cs.takeWhile (fun c => c.isDigit)
  if ds.isEmpty then none
  else some (ds.foldl (fun acc c => acc * 10 + (c.toNat - 48)) 0)

/-- JS `parseInt(s, 10)` (source line 254): skip leading whitespace, accept
an optional sign, parse the longest digit prefix; `NaN` is `none`. -/
def jsParseInt (s : String) : Option Int :=
  match s.data.dropWhile (fun c => c = ' ' ∨ c = '\t' ∨ c = '\n' ∨ c = '\r') with
  | '-' :: rest => (parseDigits rest).map (fun n => -(n : Int))
  | '+' :: rest => (parseDigits rest).map (fun n => (n : Int))
  | cs => (parseDigits cs).map (fun n => (n : Int))

/-- The HTTP outcome of `getHistory`: the 400 `days must be a number
between 1 and 90` answer, or the 200 answer `{ days, history }`. -/
inductive HistoryResult where
  | invalidInput (message : String)
  | ok (days : Int) (history : List DailyBucket)
deriving DecidableEq

/-- `getHistory` (source lines 252-289): default the day-count to 7 when
the route parameter is missing or empty (JS falsiness of
`req.params.days`), parse it with `parseInt(daysParam, 10)`, answer 400
when the result is `NaN` or outside `[1, 90]`; otherwise filter the store
by `time >= sinceStr` where `since` is now minus `days` days, and group
the survivors into sorted daily buckets. -/
def getHistory (daysParam : Option String) (nowMs : Int)
    (msToIso : Int → String) (store : List AqiRecord) : HistoryResult :=
  let days? : Option Int :=
    match daysParam with
    | none => some 7
    | some s => if s = "" then some 7 else jsParseInt s
  match days? with
  | none => .invalidInput "days must be a number between 1 and 90"
  | some days =>
    if days < 1 ∨ 90 < days then
      .invalidInput "days must be a number between 1 and 90"
    else
      .ok days (aggregateByDay
        (queryHistory store (msToIso (nowMs - days * 86400000))))

/-- A sample observation: 2024-01-01, AQI 10. -/
def obsA : AqiRecord := ⟨"Springfield", 10, 0, 0, "2024-01-01T05:00:00.000Z", none⟩

/-- A sample observation: 2024-01-01, AQI 20. -/
def obsB : AqiRecord := ⟨"Springfield", 20, 0, 0, "2024-01-01T11:00:00.000Z", none⟩

/-- A sample observation: 2024-01-01, AQI 30. -/
def obsC : AqiRecord := ⟨"Springfield", 30, 0, 0, "2024-01-01T17:00:00.000Z", none⟩

/-- A sample upstream payload whose status is not `"ok"`. -/
def badPayload : Payload := ⟨"error", none⟩

/-- A sample `data.data` object with a missing (`null`) `aqi` field. -/
def payloadD : PayloadData :=
  ⟨none, some "Delhi", some "pm25", none, none, none, none, none,
   some "2024-01-01T05:00:00.000Z"⟩

/-- A sample successful payload carrying `payloadD`. -/
def okPayloadNullAqi : Payload := ⟨"ok", some payloadD⟩

theorem getLevelGo_eq_find? (aqi : Int) (ls : List AqiLevel) :
    getLevelGo aqi ls = ls.find? (fun l => aqi ≤ l.max) := by
  induction ls with
  | nil => rfl
  | cons l rest ih =>
    by_cases h : aqi ≤ l.max <;> simp [getLevelGo, List.find?_cons, h, ih]

theorem getLevel_of_le_50 {aqi : Int} (h : aqi ≤ 50) :
    getLevel aqi = goodLevel := by
  have hm : aqi ≤ goodLevel.max := h
  simp [getLevel, AQI_LEVELS, getLevelGo, hm]

theorem getLevel_of_51_100 {aqi : Int} (h0 : ¬ aqi ≤ 50) (h : aqi ≤ 100) :
    getLevel aqi = moderateLevel := by
  have hm0 : ¬ aqi ≤ goodLevel.max := h0
  have hm : aqi ≤ moderateLevel.max := h
  simp [getLevel, AQI_LEVELS, getLevelGo, hm0, hm]

theorem getLevel_of_101_150 {aqi : Int} (h0 : ¬ aqi ≤ 100) (h : aqi ≤ 150) :
    getLevel aqi = sensitiveLevel := by
  have hm1 : ¬ aqi ≤ goodLevel.max := by show ¬ aqi ≤ 50; omega
  have hm0 : ¬ aqi ≤ moderateLevel.max := h0
  have hm : aqi ≤ sensitiveLevel.max := h
  simp [getLevel, AQI_LEVELS, getLevelGo, hm1, hm0, hm]

theorem getLevel_of_151_200 {aqi : Int} (h0 : ¬ aqi ≤ 150) (h : aqi ≤ 200) :
    getLevel aqi = unhealthyLevel := by
  have hm1 : ¬ aqi ≤ goodLevel.max := by show ¬ aqi ≤ 50; omega
  have hm2 : ¬ aqi ≤ moderateLevel.max := by show ¬ aqi ≤ 100; omega
  have hm0 : ¬ aqi ≤ sensitiveLevel.max := h0
  have hm : aqi ≤ unhealthyLevel.max := h
  simp [getLevel, AQI_LEVELS, getLevelGo, hm1, hm2, hm0, hm]

theorem getLevel_of_201_300 {aqi : Int} (h0 : ¬ aqi ≤ 200) (h : aqi ≤ 300) :
    getLevel aqi = veryUnhealthyLevel := by
  have hm1 : ¬ aqi ≤ goodLevel.max := by show ¬ aqi ≤ 50; omega
  have hm2 : ¬ aqi ≤ moderateLevel.max := by show ¬ aqi ≤ 100; omega
  have hm3 : ¬ aqi ≤ sensitiveLevel.max := by show ¬ aqi ≤ 150; omega
  have hm0 : ¬ aqi ≤ unhealthyLevel.max := h0
  have hm : aqi ≤ veryUnhealthyLevel.max := h
  simp [getLevel, AQI_LEVELS, getLevelGo, hm1, hm2, hm3, hm0, hm]

theorem getLevel_of_301_500 {aqi : Int} (h0 : ¬ aqi ≤ 300) (h : aqi ≤ 500) :
    getLevel aqi = hazardousLevel := by
  have hm1 : ¬ aqi ≤ goodLevel.max := by show ¬ aqi ≤ 50; omega
  have hm2 : ¬ aqi ≤ moderateLevel.max := by show ¬ aqi ≤ 100; omega
  have hm3 : ¬ aqi ≤ sensitiveLevel.max := by show ¬ aqi ≤ 150; omega
  have hm4 : ¬ aqi ≤ unhealthyLevel.max := by show ¬ aqi ≤ 200; omega
  have hm0 : ¬ aqi ≤ veryUnhealthyLevel.max := h0
  have hm : aqi ≤ hazardousLevel.max := h
  simp [getLevel, AQI_LEVELS, getLevelGo, hm1, hm2, hm3, hm4, hm0, hm]

theorem getLevel_of_gt_500 {aqi : Int} (h : ¬ aqi ≤ 500) :
    getLevel aqi = hazardousLevel := by
  have hm1 : ¬ aqi ≤ goodLevel.max := by show ¬ aqi ≤ 50; omega
  have hm2 : ¬ aqi ≤ moderateLevel.max := by show ¬ aqi ≤ 100; omega
  have hm3 : ¬ aqi ≤ sensitiveLevel.max := by show ¬ aqi ≤ 150; omega
  have hm4 : ¬ aqi ≤ unhealthyLevel.max := by show ¬ aqi ≤ 200; omega
  have hm5 : ¬ aqi ≤ veryUnhealthyLevel.max := by show ¬ aqi ≤ 300; omega
  have hm0 : ¬ aqi ≤ hazardousLevel.max := h
  simp [getLevel, AQI_LEVELS, getLevelGo, hm1, hm2, hm3, hm4, hm5, hm0]

theorem getLevel_mem (aqi : Int) : getLevel aqi ∈ AQI_LEVELS := by
  by_cases c1 : aqi ≤ 50
  · rw [getLevel_of_le_50 c1]; simp [AQI_LEVELS]
  by_cases c2 : aqi ≤ 100
  · rw [getLevel_of_51_100 c1 c2]; simp [AQI_LEVELS]
  by_cases c3 : aqi ≤ 150
  · rw [getLevel_of_101_150 c2 c3]; simp [AQI_LEVELS]
  by_cases c4 : aqi ≤ 200
  · rw [getLevel_of_151_200 c3 c4]; simp [AQI_LEVELS]
  by_cases c5 : aqi ≤ 300
  · rw [getLevel_of_201_300 c4 c5]; simp [AQI_LEVELS]
  by_cases c6 : aqi ≤ 500
  · rw [getLevel_of_301_500 c5 c6]; simp [AQI_LEVELS]
  · rw [getLevel_of_gt_500 c6]; simp [AQI_LEVELS]

theorem getLevel_bound_or_last (aqi : Int) :
    aqi ≤ (getLevel aqi).max ∨ getLevel aqi = hazardousLevel := by
  by_cases c1 : aqi ≤ 50
  · left; rw [getLevel_of_le_50 c1]; exact c1
  by_cases c2 : aqi ≤ 100
  · left; rw [getLevel_of_51_100 c1 c2]; exact c2
  by_cases c3 : aqi ≤ 150
  · left; rw [getLevel_of_101_150 c2 c3]; exact c3
  by_cases c4 : aqi ≤ 200
  · left; rw [getLevel_of_151_200 c3 c4]; exact c4
  by_cases c5 : aqi ≤ 300
  · left; rw [getLevel_of_201_300 c4 c5]; exact c5
  by_cases c6 : aqi ≤ 500
  · left; rw [getLevel_of_301_500 c5 c6]; exact c6
  · right; exact getLevel_of_gt_500 c6

theorem recordObs_eq_drop (store : List AqiRecord) (r : AqiRecord)
    (h : store.length ≤ MAX_HISTORY) :
    recordObs store r = (store ++ [r]).drop ((store.length + 1) - MAX_HISTORY) := by
  simp only [recordObs, List.length_append, List.length_cons, List.length_nil]
  by_cases hc : MAX_HISTORY < store.length + 1
  · rw [if_pos hc]
    have : store.length + 1 - MAX_HISTORY = 1 := by omega
    rw [this]
  · rw [if_neg hc]
    have : store.length + 1 - MAX_HISTORY = 0 := by omega
    rw [this, List.drop_zero]

theorem recordObs_length_le (store : List AqiRecord) (r : AqiRecord)
    (h : store.length ≤ MAX_HISTORY) :
    (recordObs store r).length ≤ MAX_HISTORY := by
  rw [recordObs_eq_drop store r h]
  simp only [List.length_drop, List.length_append, List.length_cons,
    List.length_nil]
  omega

theorem foldl_recordObs (l : List AqiRecord) :
    ∀ s : List AqiRecord, s.length ≤ MAX_HISTORY →
      l.foldl recordObs s = (s ++ l).drop ((s.length + l.length) - MAX_HISTORY) := by
  induction l with
  | nil =>
    intro s hs
    simp only [List.foldl_nil, List.append_nil, List.length_nil, Nat.add_zero]
    rw [Nat.sub_eq_zero_of_le hs, List.drop_zero]
  | cons r rest ih =>
    intro s hs
    have hlen : (recordObs s r).length ≤ MAX_HISTORY := recordObs_length_le s r hs
    rw [List.foldl_cons, ih _ hlen, recordObs_eq_drop s r hs]
    have hd1 : (s.length + 1) - MAX_HISTORY ≤ (s ++ [r]).length := by
      simp only [List.length_append, List.length_cons, List.length_nil]; omega
    rw [← List.drop_append_of_le_length hd1, List.drop_drop]
    have hlist : (s ++ [r]) ++ rest = s ++ r :: rest := by simp
    rw [hlist]
    have hidx : ∀ i j : Nat, i = j →
        (s ++ r :: rest).drop i = (s ++ r :: rest).drop j := by
      intro i j hij; rw [hij]
    apply hidx
    simp only [List.length_drop, List.length_append, List.length_cons,
      List.length_nil]
    omega

theorem queryHistory_sublist (store : List AqiRecord) (ts : String) :
    (queryHistory store ts).Sublist store :=
  List.filter_sublist store

theorem mem_queryHistory (store : List AqiRecord) (ts : String) (r : AqiRecord) :
    r ∈ queryHistory store ts ↔ r ∈ store ∧ ts ≤ r.time := by
  simp [queryHistory, List.mem_filter]

theorem queryHistory_eq_nil (store : List AqiRecord) (ts : String)
    (h : ∀ r ∈ store, r.time < ts) : queryHistory store ts = [] := by
  rw [queryHistory, List.filter_eq_nil_iff]
  intro r hr
  simpa using not_le.mpr (h r hr)

theorem roundedMean_eq_floor (sum : Int) (len : Nat) (h : 0 < len) :
    roundedMean sum len = ⌊(sum : ℚ) / (len : ℚ) + 1 / 2⌋ := by
  have hl : ((len : ℤ) : ℚ) ≠ 0 := by
    simp only [ne_eq, Int.cast_eq_zero, Nat.cast_eq_zero]
    omega
  have hx : (sum : ℚ) / (len : ℚ) + 1 / 2 =
      ((2 * sum + len : ℤ) : ℚ) / ((2 * len : ℕ) : ℚ) := by
    push_cast
    field_simp
    ring
  rw [hx, Rat.floor_intCast_div_natCast, roundedMean]
  congr 1

theorem mem_insertSortedByDate (b x : DailyBucket) (l : List DailyBucket) :
    x ∈ insertSortedByDate b l ↔ x = b ∨ x ∈ l := by
  induction l with
  | nil => simp [insertSortedByDate]
  | cons c rest ih =>
    by_cases hc : b.date ≤ c.date
    · simp [insertSortedByDate, hc]
    · simp only [insertSortedByDate, if_neg hc, List.mem_cons, ih]
      tauto

theorem pairwise_insertSortedByDate (b : DailyBucket) (l : List DailyBucket)
    (h : l.Pairwise (fun a c => a.date ≤ c.date)) :
    (insertSortedByDate b l).Pairwise (fun a c => a.date ≤ c.date) := by
  induction l with
  | nil => simp [insertSortedByDate]
  | cons c rest ih =>
    rcases List.pairwise_cons.mp h with ⟨hc, hrest⟩
    by_cases hbc : b.date ≤ c.date
    · simp only [insertSortedByDate, if_pos hbc]
      refine List.pairwise_cons.mpr ⟨?_, h⟩
      intro x hx
      rcases List.mem_cons.mp hx with rfl | hx'
      · exact hbc
      · exact le_trans hbc (hc x hx')
    · simp only [insertSortedByDate, if_neg hbc]
      refine List.pairwise_cons.mpr ⟨?_, ih hrest⟩
      intro x hx
      rcases (mem_insertSortedByDate b x rest).mp hx with rfl | hx'
      · exact le_of_not_le hbc
      · exact hc x hx'

theorem sortByDate_pairwise (bs : List DailyBucket) :
    (sortByDate bs).Pairwise (fun a c => a.date ≤ c.date) := by
  induction bs with
  | nil => simp [sortByDate]
  | cons b rest ih =>
    exact pairwise_insertSortedByDate b (sortByDate rest) ih

theorem mem_sortByDate (bs : List DailyBucket) (x : DailyBucket) :
    x ∈ sortByDate bs ↔ x ∈ bs := by
  induction bs with
  | nil => simp [sortByDate]
  | cons b rest ih =>
    show x ∈ insertSortedByDate b (sortByDate rest) ↔ _
    rw [mem_insertSortedByDate, ih, List.mem_cons]

theorem insertByDay_inv (r : AqiRecord) (acc : List (String × List AqiRecord))
    (h : ∀ p ∈ acc, p.2 ≠ [] ∧ ∀ x ∈ p.2, dateKey x = p.1) :
    ∀ p ∈ insertByDay (dateKey r) r acc,
      p.2 ≠ [] ∧ ∀ x ∈ p.2, dateKey x = p.1 := by
  induction acc with
  | nil =>
    intro p hp
    simp only [insertByDay, List.mem_singleton] at hp
    subst hp
    refine ⟨by simp, ?_⟩
    intro x hx
    simp only [List.mem_singleton] at hx
    subst hx
    rfl
  | cons q rest ih =>
    obtain ⟨k, rs⟩ := q
    intro p hp
    by_cases hk : k = dateKey r
    · simp only [insertByDay, if_pos hk, List.mem_cons] at hp
      rcases hp with rfl | hp'
      · obtain ⟨-, hq2⟩ := h (k, rs) (List.mem_cons_self _ _)
        refine ⟨by simp, ?_⟩
        intro x hx
        rcases List.mem_append.mp hx with hx' | hx'
        · exact hq2 x hx'
        · simp only [List.mem_singleton] at hx'
          subst hx'
          exact hk.symm
      · exact h p (List.mem_cons_of_mem _ hp')
    · simp only [insertByDay, if_neg hk, List.mem_cons] at hp
      rcases hp with rfl | hp'
      · exact h (k, rs) (List.mem_cons_self _ _)
      · exact ih (fun q hq => h q (List.mem_cons_of_mem _ hq)) p hp'

theorem groupByDay_inv (records : List AqiRecord) :
    ∀ p ∈ groupByDay records, p.2 ≠ [] ∧ ∀ x ∈ p.2, dateKey x = p.1 := by
  suffices hgen : ∀ (l : List AqiRecord) (acc : List (String × List AqiRecord)),
      (∀ p ∈ acc, p.2 ≠ [] ∧ ∀ x ∈ p.2, dateKey x = p.1) →
      ∀ p ∈ l.foldl (fun a x => insertByDay (dateKey x) x a) acc,
        p.2 ≠ [] ∧ ∀ x ∈ p.2, dateKey x = p.1 by
    exact hgen records [] (by simp)
  intro l
  induction l with
  | nil => intro acc hacc; simpa using hacc
  | cons r rest ih =>
    intro acc hacc
    rw [List.foldl_cons]
    exact ih _ (insertByDay_inv r acc hacc)

theorem insertByDay_self (d : String) (r : AqiRecord)
    (acc : List (String × List AqiRecord)) :
    ∃ g, (d, g) ∈ insertByDay d r acc ∧ r ∈ g := by
  induction acc with
  | nil => exact ⟨[r], by simp [insertByDay], by simp⟩
  | cons q rest ih =>
    obtain ⟨k, rs⟩ := q
    by_cases hk : k = d
    · subst hk
      refine ⟨rs ++ [r], ?_, by simp⟩
      simp [insertByDay]
    · obtain ⟨g, hg, hrg⟩ := ih
      refine ⟨g, ?_, hrg⟩
      simp only [insertByDay, if_neg hk]
      exact List.mem_cons_of_mem _ hg

theorem insertByDay_superset (d : String) (r : AqiRecord)
    (acc : List (String × List AqiRecord)) (k : String) (g : List AqiRecord)
    (h : (k, g) ∈ acc) :
    ∃ g2, (k, g2) ∈ insertByDay d r acc ∧ ∀ x ∈ g, x ∈ g2 := by
  induction acc with
  | nil => cases h
  | cons q rest ih =>
    obtain ⟨k0, rs0⟩ := q
    by_cases hk : k0 = d
    · rcases List.mem_cons.mp h with heq | htail
      · rw [Prod.mk.injEq] at heq
        obtain ⟨rfl, rfl⟩ := heq
        refine ⟨g ++ [r], ?_, fun x hx => List.mem_append_left _ hx⟩
        simp [insertByDay, hk]
      · refine ⟨g, ?_, fun x hx => hx⟩
        simp only [insertByDay, if_pos hk]
        exact List.mem_cons_of_mem _ htail
    · rcases List.mem_cons.mp h with heq | htail
      · refine ⟨g, ?_, fun x hx => hx⟩
        simp only [insertByDay, if_neg hk]
        rw [heq]
        exact List.mem_cons_self _ _
      · obtain ⟨g2, hg2, hsub⟩ := ih htail
        refine ⟨g2, ?_, hsub⟩
        simp only [insertByDay, if_neg hk]
        exact List.mem_cons_of_mem _ hg2

theorem groupByDay_complete (records : List AqiRecord) (r : AqiRecord)
    (h : r ∈ records) :
    ∃ g, (dateKey r, g) ∈ groupByDay records ∧ r ∈ g := by
  suffices hgen : ∀ (l : List AqiRecord) (acc : List (String × List AqiRecord))
      (k : String) (x : AqiRecord),
      ((x ∈ l ∧ k = dateKey x) ∨ ∃ g, (k, g) ∈ acc ∧ x ∈ g) →
      ∃ g, (k, g) ∈ l.foldl (fun a y => insertByDay (dateKey y) y a) acc ∧ x ∈ g by
    exact hgen records [] (dateKey r) r (Or.inl ⟨h, rfl⟩)
  intro l
  induction l with
  | nil =>
    intro acc k x hx
    rcases hx with ⟨hmem, -⟩ | hacc
    · simp at hmem
    · simpa using hacc
  | cons y rest ih =>
    intro acc k x hx
    rw [List.foldl_cons]
    apply ih
    rcases hx with ⟨hmem, hk⟩ | ⟨g, hg, hxg⟩
    · rcases List.mem_cons.mp hmem with rfl | htail
      · right
        subst hk
        exact insertByDay_self (dateKey x) x acc
      · exact Or.inl ⟨htail, hk⟩
    · right
      obtain ⟨g2, hg2, hsub⟩ := insertByDay_superset (dateKey y) y acc k g hg
      exact ⟨g2, hg2, hsub x hxg⟩

/-- Claim C1: for every integer `aqi` in `[0, 10000]`, `getLevel` returns one
of the six fixed severity bands, and either the returned band's upper bound
is `>= aqi` or the returned band is the last band of the ordered list;
equivalently, `getLevel` is the ascending scan of the band list returning
the first band whose upper bound is `>= aqi`, with the last band as
fallback. -/
theorem claim1_classifier_total_and_bounded (aqi : Int)
    (_h0 : 0 ≤ aqi) (_h1 : aqi ≤ 10000) :
    getLevel aqi ∈ AQI_LEVELS ∧
    (aqi ≤ (getLevel aqi).max ∨ getLevel aqi = AQI_LEVELS.getLast (by decide)) ∧
    getLevel aqi =
      (AQI_LEVELS.find? (fun l => aqi ≤ l.max)).getD
        (AQI_LEVELS.getLast (by decide)) := by
  refine ⟨getLevel_mem aqi, ?_, ?_⟩
  · rcases getLevel_bound_or_last aqi with hb | hl
    · exact Or.inl hb
    · refine Or.inr ?_
      rw [hl]
      decide
  · unfold getLevel
    rw [getLevelGo_eq_find?]
    cases hf : AQI_LEVELS.find? (fun l => aqi ≤ l.max) <;> simp

/-- Witness for C1 at `aqi = 75`. -/
theorem claim1_witness :
    getLevel 75 ∈ AQI_LEVELS ∧
    (75 ≤ (getLevel 75).max ∨ getLevel 75 = AQI_LEVELS.getLast (by decide)) ∧
    getLevel 75 =
      (AQI_LEVELS.find? (fun l => (75 : Int) ≤ l.max)).getD
        (AQI_LEVELS.getLast (by decide)) :=
  claim1_classifier_total_and_bounded 75 (by decide) (by decide)

/-- Claim C2: a record operation on a store within capacity keeps the store
within capacity (`length <= MAX_HISTORY`), and inserting `MAX_HISTORY + k`
observations (`k > 0`) one at a time into an empty store leaves exactly the
`MAX_HISTORY` most recently inserted observations in insertion order — the
oldest `k` are evicted. -/
theorem claim2_history_capacity :
    (∀ (store : List AqiRecord) (r : AqiRecord),
       store.length ≤ MAX_HISTORY → (recordObs store r).length ≤ MAX_HISTORY) ∧
    (∀ (obs : List AqiRecord) (k : Nat), 0 < k →
       obs.length = MAX_HISTORY + k →
       obs.foldl recordObs [] = obs.drop k ∧
       (obs.foldl recordObs []).length = MAX_HISTORY) := by
  refine ⟨recordObs_length_le, ?_⟩
  intro obs k hk hlen
  have h0 : ([] : List AqiRecord).length ≤ MAX_HISTORY := by simp
  have hf := foldl_recordObs obs [] h0
  rw [List.nil_append] at hf
  have hidx : (([] : List AqiRecord).length + obs.length) - MAX_HISTORY = k := by
    simp only [List.length_nil]
    omega
  rw [hidx] at hf
  refine ⟨hf, ?_⟩
  rw [hf]
  simp only [List.length_drop]
  omega

/-- Witness for C2: one record into an empty store, and 501 identical
observations into an empty store of capacity 500. -/
theorem claim2_witness :
    (recordObs [] obsA).length ≤ MAX_HISTORY ∧
    (List.replicate (MAX_HISTORY + 1) obsA).foldl recordObs [] =
      (List.replicate (MAX_HISTORY + 1) obsA).drop 1 :=
  ⟨claim2_history_capacity.1 [] obsA (by simp),
   (claim2_history_capacity.2 (List.replicate (MAX_HISTORY + 1) obsA) 1
     (by decide) (by simp)).1⟩

/-- Claim C3: the filter step of `getHistory` returns a subsequence of the
store in original insertion order containing exactly the stored
observations whose timestamp is `>=` the lower bound, and a lower bound
greater than every stored timestamp yields the empty sequence. -/
theorem claim3_query_filter :
    (∀ (store : List AqiRecord) (ts : String),
       (queryHistory store ts).Sublist store) ∧
    (∀ (store : List AqiRecord) (ts : String) (r : AqiRecord),
       r ∈ queryHistory store ts ↔ r ∈ store ∧ ts ≤ r.time) ∧
    (∀ (store : List AqiRecord) (ts : String),
       (∀ r ∈ store, r.time < ts) → queryHistory store ts = []) :=
  ⟨queryHistory_sublist, mem_queryHistory, queryHistory_eq_nil⟩

/-- Witness for C3: a lower bound later than both stored timestamps yields
the empty sequence. -/
theorem claim3_witness :
    queryHistory [obsA, obsB] "2025-06-01T00:00:00.000Z" = [] :=
  claim3_query_filter.2.2 [obsA, obsB] "2025-06-01T00:00:00.000Z" (by
    intro r hr
    rw [String.lt_iff_toList_lt]
    rcases List.mem_cons.mp hr with rfl | hr'
    · decide
    · rcases List.mem_cons.mp hr' with rfl | hr''
      · decide
      · cases hr'')

/-- Claim C4: `aggregateByDay` yields buckets sorted ascending by date
string; every bucket is nonempty, is keyed by the common date prefix (first
10 characters of the timestamp) of its readings, and carries the rounded
arithmetic mean of their AQI values; every input observation lands in the
bucket of its date; three observations dated 2024-01-01 with AQI 10, 20, 30
yield one bucket with average 20; the empty input yields no buckets. -/
theorem claim4_aggregateByDay :
    aggregateByDay [] = [] ∧
    aggregateByDay [obsA, obsB, obsC] =
      [⟨"2024-01-01", 20, [obsA, obsB, obsC]⟩] ∧
    (∀ records : List AqiRecord,
       (aggregateByDay records).Pairwise (fun a b => a.date ≤ b.date)) ∧
    (∀ (records : List AqiRecord) (b : DailyBucket), b ∈ aggregateByDay records →
       b.readings ≠ [] ∧ (∀ r ∈ b.readings, dateKey r = b.date) ∧
       b.avgAqi = ⌊(((b.readings.map (fun r => r.aqi)).sum : Int) : ℚ) /
         (b.readings.length : ℚ) + 1 / 2⌋) ∧
    (∀ (records : List AqiRecord) (r : AqiRecord), r ∈ records →
       ∃ b ∈ aggregateByDay records, b.date = dateKey r ∧ r ∈ b.readings) := by
  refine ⟨rfl, by decide, fun records => sortByDate_pairwise _, ?_, ?_⟩
  · intro records b hb
    rw [aggregateByDay, mem_sortByDate, List.mem_map] at hb
    obtain ⟨p, hp, rfl⟩ := hb
    obtain ⟨hne, hkeys⟩ := groupByDay_inv records p hp
    refine ⟨hne, hkeys, ?_⟩
    have hlen : 0 < p.2.length := List.length_pos.mpr hne
    show roundedMean ((p.2.map (fun r => r.aqi)).sum) p.2.length = _
    rw [roundedMean_eq_floor _ _ hlen]
    rfl
  · intro records r hr
    obtain ⟨g, hg, hrg⟩ := groupByDay_complete records r hr
    refine ⟨mkBucket (dateKey r) g, ?_, rfl, hrg⟩
    rw [aggregateByDay, mem_sortByDate, List.mem_map]
    exact ⟨(dateKey r, g), hg, rfl⟩

/-- Witness for C4 on the three 2024-01-01 observations. -/
theorem claim4_witness :
    (∃ b ∈ aggregateByDay [obsA, obsB, obsC],
       b.date = dateKey obsA ∧ obsA ∈ b.readings) ∧
    (aggregateByDay [obsA, obsB, obsC]).Pairwise (fun a b => a.date ≤ b.date) :=
  ⟨claim4_aggregateByDay.2.2.2.2 [obsA, obsB, obsC] obsA (by decide),
   claim4_aggregateByDay.2.2.1 [obsA, obsB, obsC]⟩

/-- Claim C5: boundary behaviour of the classifier — 50 is Good, 51 is
Moderate, 500 and 999999 are Hazardous. -/
theorem claim5_boundary_labels :
    (getLevel 50).label = "Good" ∧ (getLevel 51).label = "Moderate" ∧
    (getLevel 500).label = "Hazardous" ∧
    (getLevel 999999).label = "Hazardous" :=
  ⟨by decide, by decide, by decide, by decide⟩

/-- Claim C6: when the provider lookup fails — the request throws, the
payload's status is not `"ok"`, or its `data` is missing — `getData`
answers with a distinguishable error (500 or 502) and leaves the history
store unchanged. -/
theorem claim6_upstream_failure :
    (∀ (msg nowIso : String) (numLat numLng : Rat) (store : List AqiRecord),
       getData (.failure msg) nowIso numLat numLng store =
         (.serverError msg, store)) ∧
    (∀ (p : Payload) (nowIso : String) (numLat numLng : Rat)
       (store : List AqiRecord),
       p.status ≠ "ok" ∨ p.data = none →
       getData (.success p) nowIso numLat numLng store =
         (.badGateway p, store)) := by
  constructor
  · intro msg nowIso numLat numLng store
    rfl
  · intro p nowIso numLat numLng store h
    obtain ⟨status, data⟩ := p
    cases data with
    | none => rfl
    | some d =>
      rcases h with hs | hd
      · simp only [getData]
        rw [if_pos hs]
      · exact Option.noConfusion hd

/-- Witness for C6: a non-ok payload against a one-element store. -/
theorem claim6_witness :
    getData (.success badPayload) "2024-02-02T00:00:00.000Z" 0 0 [obsA] =
      (.badGateway badPayload, [obsA]) :=
  claim6_upstream_failure.2 badPayload "2024-02-02T00:00:00.000Z" 0 0 [obsA]
    (Or.inr rfl)

/-- Claim C7: the band list has exactly six entries with upper bounds
50, 100, 150, 200, 300, 500 in strictly increasing order; every
non-negative integer AQI is classified into a band of the list, and every
value above 500 falls into the last (catch-all) band. -/
theorem claim7_band_invariants :
    AQI_LEVELS.length = 6 ∧
    AQI_LEVELS.map (fun l => l.max) = [50, 100, 150, 200, 300, 500] ∧
    (AQI_LEVELS.map (fun l => l.max)).Pairwise (fun a b => a < b) ∧
    (∀ aqi : Int, 0 ≤ aqi → getLevel aqi ∈ AQI_LEVELS) ∧
    (∀ aqi : Int, 500 < aqi →
       getLevel aqi = AQI_LEVELS.getLast (by decide)) := by
  refine ⟨by decide, by decide, by decide, fun aqi _ => getLevel_mem aqi, ?_⟩
  intro aqi h
  rw [getLevel_of_gt_500 (by omega)]
  decide

/-- Witness for C7 at `aqi = 0` and `aqi = 501`. -/
theorem claim7_witness :
    getLevel 0 ∈ AQI_LEVELS ∧
    getLevel 501 = AQI_LEVELS.getLast (by decide) :=
  ⟨claim7_band_invariants.2.2.2.1 0 (by decide),
   claim7_band_invariants.2.2.2.2 501 (by decide)⟩

/-- Claim C8: the day-count route parameter is validated against `[1, 90]`:
a value that does not parse to a number, or parses outside the range,
makes `getHistory` answer the 400 invalid-input error without querying the
store; a value in range makes it answer with the aggregated history of the
window whose lower bound is now minus `days` days. -/
theorem claim8_days_validation :
    (∀ (s : String) (nowMs : Int) (msToIso : Int → String)
       (store : List AqiRecord),
       s ≠ "" → jsParseInt s = none →
       getHistory (some s) nowMs msToIso store =
         .invalidInput "days must be a number between 1 and 90") ∧
    (∀ (s : String) (d : Int) (nowMs : Int) (msToIso : Int → String)
       (store : List AqiRecord),
       s ≠ "" → jsParseInt s = some d → (d < 1 ∨ 90 < d) →
       getHistory (some s) nowMs msToIso store =
         .invalidInput "days must be a number between 1 and 90") ∧
    (∀ (s : String) (d : Int) (nowMs : Int) (msToIso : Int → String)
       (store : List AqiRecord),
       s ≠ "" → jsParseInt s = some d → 1 ≤ d → d ≤ 90 →
       getHistory (some s) nowMs msToIso store =
         .ok d (aggregateByDay (queryHistory store
           (msToIso (nowMs - d * 86400000))))) := by
  refine ⟨?_, ?_, ?_⟩
  · intro s nowMs msToIso store hs hp
    simp only [getHistory, if_neg hs, hp]
  · intro s d nowMs msToIso store hs hp hr
    simp only [getHistory, if_neg hs, hp]
    rw [if_pos hr]
  · intro s d nowMs msToIso store hs hp h1 h90
    simp only [getHistory, if_neg hs, hp]
    rw [if_neg (by omega)]

/-- Witness for C8 on the inputs `"xyz"` (not a number), `"200"` (out of
range) and `"30"` (in range). -/
theorem claim8_witness :
    getHistory (some "xyz") 0 (fun _ => "") [] =
      .invalidInput "days must be a number between 1 and 90" ∧
    getHistory (some "200") 0 (fun _ => "") [] =
      .invalidInput "days must be a number between 1 and 90" ∧
    getHistory (some "30") 0 (fun _ => "") [] =
      .ok 30 (aggregateByDay (queryHistory []
        ((fun _ => "") (0 - 30 * 86400000)))) :=
  ⟨claim8_days_validation.1 "xyz" 0 (fun _ => "") [] (by decide) (by decide),
   claim8_days_validation.2.1 "200" 200 0 (fun _ => "") [] (by decide)
     (by decide) (by decide),
   claim8_days_validation.2.2 "30" 30 0 (fun _ => "") [] (by decide)
     (by decide) (by decide) (by decide)⟩

/-- Claim C9: every integer AQI at most 50 — negative integers included —
is classified into the first band, labelled Good; negative inputs are
neither rejected nor coerced. -/
theorem claim9_low_inputs_good (aqi : Int) (h : aqi ≤ 50) :
    getLevel aqi = goodLevel ∧ (getLevel aqi).label = "Good" := by
  refine ⟨getLevel_of_le_50 h, ?_⟩
  rw [getLevel_of_le_50 h]
  rfl

/-- Witness for C9 at the negative input `-5`. -/
theorem claim9_witness :
    getLevel (-5) = goodLevel ∧ (getLevel (-5)).label = "Good" :=
  claim9_low_inputs_good (-5) (by decide)

/-- Claim C10: when the lookup succeeds (status `"ok"`, data present) but
the payload's `aqi` field is missing or `null`, `getData` substitutes 0:
the response carries `aqi = 0` classified into the first band, and the
observation appended to the store carries `aqi = 0`. -/
theorem claim10_null_aqi_defaults_zero (p : Payload) (d : PayloadData)
    (nowIso : String) (numLat numLng : Rat) (store : List AqiRecord)
    (hok : p.status = "ok") (hd : p.data = some d) (haqi : d.aqi = none) :
    getData (.success p) nowIso numLat numLng store =
      (.success ⟨d.cityName.getD "Unknown", 0, d.dominentpol,
        ⟨d.pm25, d.pm10, d.no2, d.so2, d.o3⟩, d.timeS.getD nowIso, goodLevel⟩,
       recordObs store ⟨d.cityName.getD "Unknown", 0, numLat, numLng,
         d.timeS.getD nowIso, d.dominentpol⟩) := by
  obtain ⟨status, data⟩ := p
  simp only at hok hd
  subst hok
  subst hd
  simp only [getData, haqi, Option.getD_none]
  rw [if_neg (by simp)]
  rw [show getLevel 0 = goodLevel from getLevel_of_le_50 (by decide)]

/-- Witness for C10 on a concrete ok-payload with `aqi = null`. -/
theorem claim10_witness :
    getData (.success okPayloadNullAqi) "2024-02-02T00:00:00.000Z" 0 0 [] =
      (.success ⟨"Delhi", 0, some "pm25", ⟨none, none, none, none, none⟩,
        "2024-01-01T05:00:00.000Z", goodLevel⟩,
       recordObs [] ⟨"Delhi", 0, 0, 0, "2024-01-01T05:00:00.000Z",
         some "pm25"⟩) :=
  claim10_null_aqi_defaults_zero okPayloadNullAqi payloadD
    "2024-02-02T00:00:00.000Z" 0 0 [] rfl rfl rfl
